import Mathlib

/-!
Shallow embedding of the catalog reconciliation and profitability pipeline
of this repository (src/lib/processor.ts, src/lib/utils.ts,
src/lib/orderBuilder.ts), together with theorems settling the claims
about it.

Modelling conventions:
* JS numbers are modelled as rationals.  Every numeric value the pipeline
  produces is an exact decimal (parsed from digit strings, combined with
  +, *, /, floor), so this is faithful on all reachable values.
* JS strings are Lean strings; an absent (undefined) value is modelled as
  none in an Option.  JS trim and toLowerCase are modelled on the ASCII
  range, which covers every sentinel and pattern the code compares.
* String-keyed JS objects and Maps (raw rows, the cost Map, _styles) are
  modelled as association lists with overwrite-on-set semantics.
-/

namespace Pipeline

/-- Association-list lookup, modelling obj[key] on a string-keyed bag:
none models undefined (absent key). -/
def alookup (m : List (String × String)) (k : String) : Option String :=
  (m.find? (fun p => p.1 == k)).map (fun p => p.2)

/-- Raw row of a parsed table: original header to cell text, as produced
by parseExcel (raw:false formats every cell as a string). -/
abbrev JRow := List (String × String)

/-- Column mapping: standard field name to original header. -/
abbrev JMap := List (String × String)

/-- JS a || b for numbers: 0 is the only falsy number reachable here. -/
def jsOrQ (a b : ℚ) : ℚ := if a = 0 then b else a

/-- JS v || d for a possibly-undefined string: undefined and the empty
string are falsy. -/
def jsOrS (a : Option String) (d : String) : String :=
  match a with
  | none => d
  | some s => if s = "" then d else s

/-- Truthiness of a possibly-undefined string value. -/
def truthyS (v : Option String) : Bool :=
  match v with
  | none => false
  | some s => s != ""

/-- Checks whether a list of characters starts with the given run. -/
def leadsWith : List Char → List Char → Bool
  | [], _ => true
  | _ :: _, [] => false
  | a :: as, b :: bs => a == b && leadsWith as bs

/-- Models JS String.prototype.includes: needle occurs contiguously in
hay. -/
def containsRun (hay needle : List Char) : Bool :=
  (List.range (hay.length + 1)).any (fun i => leadsWith needle (hay.drop i))

/-- String form of containsRun; strIncludes hay needle models
hay.includes(needle). -/
def strIncludes (hay needle : String) : Bool := containsRun hay.data needle.data

/-- Models JS toLowerCase on the ASCII range (all strings the pipeline
compares case-insensitively are ASCII). -/
def jsToLower (s : String) : String := String.mk (s.data.map Char.toLower)

/-- ASCII whitespace recognised by JS trim on the inputs in scope. -/
def isWS (c : Char) : Bool := c == ' ' || c == '\t' || c == '\n' || c == '\r'

/-- Models JS String.prototype.trim. -/
def jsTrim (s : String) : String :=
  String.mk (((s.data.dropWhile isWS).reverse.dropWhile isWS).reverse)

/-- Checks for a trailing literal ".0" (the Excel numeric-export
artifact stripped by the code normalizers): the reversed character list
starts with "0.". -/
def endsDotZero (cs : List Char) : Bool := leadsWith ['0', '.'] cs.reverse

/-- Numeric value of a run of decimal digit characters. -/
def digitsVal (ds : List Char) : ℕ :=
  ds.foldl (fun a c => 10 * a + (c.toNat - 48)) 0

/-- Strips every character that is not [0-9.], modelling
String.replace(/[^0-9.]/g, ""). -/
def stripToNumeric (s : String) : List Char :=
  s.data.filter (fun c => c.isDigit || c == '.')

/-- Models parseFloat applied to a string containing only digits and
dots (the shape produced by stripToNumeric): the longest prefix of the
form digits [ . digits ] is parsed; none models NaN (no digit parsed). -/
def parseFloatStripped (cs : List Char) : Option ℚ :=
  let intPart := cs.takeWhile Char.isDigit
  let rest := cs.drop intPart.length
  let fracPart :=
    match rest with
    | '.' :: r => r.takeWhile Char.isDigit
    | _ => []
  if intPart.isEmpty && fracPart.isEmpty then none
  else some ((digitsVal intPart : ℚ) + (digitsVal fracPart : ℚ) / 10 ^ fracPart.length)

/-- Source: cleanProductCode in src/lib/utils.ts.  Trims, treats
undefined/null, the empty string and the (untrimmed) case-insensitive
sentinels nan, none, null as empty, and strips one trailing ".0". -/
def cleanProductCode (v : Option String) : String :=
  match v with
  | none => ""
  | some s =>
    if s = "" || jsToLower s = "nan" || jsToLower s = "none" || jsToLower s = "null" then ""
    else
      let cleaned := jsTrim s
      if endsDotZero cleaned.data then String.mk (cleaned.data.take (cleaned.data.length - 2))
      else cleaned

/-- Source: canonicalize in src/lib/utils.ts: lowercases and strips
every character outside [a-z0-9]. -/
def canonicalize (s : String) : String :=
  String.mk ((s.data.map Char.toLower).filter (fun c => c.isLower || c.isDigit))

/-- Least exponent j making q * 10^j an integer (bounded search; every
value reachable in the pipeline is a decimal fraction, found well inside
the bound). -/
def decExp (q : ℚ) : ℕ :=
  ((List.range 1100).find? (fun j => q.den ∣ 10 ^ j)).getD 0

/-- Models parseInt(String(q).replace(/[^0-9]/g, "")) on a number q: JS
renders the number as its decimal string, stripping the sign and the
decimal point concatenates the digits, yielding |q * 10^j| for the least
j making that an integer. -/
def jsDigitsValue (q : ℚ) : ℕ := (q * 10 ^ decExp q).num.natAbs

/-- Main-table column patterns, COLUMN_PATTERNS in src/lib/utils.ts, in
source (insertion) order. -/
def COLUMN_PATTERNS : List (String × List String) :=
  [("Brand", ["Brand"]),
   ("Parent", ["Parent ASIN", "Parent"]),
   ("ASIN", ["ASIN"]),
   ("Imported by Code", ["Imported by Code", "Import Code", "UPC", "GTIN", "EAN", "Product ID", "Barcode", "External ID"]),
   ("Title", ["Title", "Product Title"]),
   ("Color", ["Color", "Colour"]),
   ("Size", ["Size"]),
   ("Sales Badge", ["Bought in past month", "Bought in last month", "Sales Badge"]),
   ("Rating Count", ["Reviews: Rating Count", "Rating Count", "Total Ratings"]),
   ("Rating Count - Child", ["Reviews: Review Count - Format Specific", "Rating Count - Child"]),
   ("Sales Rank", ["Sales Rank: Current", "Sales Rank", "Current Rank"]),
   ("Sales Rank 30", ["Sales Rank: 30 days avg.", "Sales Rank 30"]),
   ("Sales Rank 90", ["Sales Rank: 90 days avg.", "Sales Rank 90"]),
   ("Buy Box", ["Buy Box 🚚: Current", "Buy Box", "Current Buy Box"]),
   ("Buy Box 30", ["Buy Box 🚚: 30 days avg.", "Buy Box 30"]),
   ("Buy Box 90", ["Buy Box 🚚: 90 days avg.", "Buy Box 90"]),
   ("Buy Box 180", ["Buy Box 🚚: 180 days avg.", "Buy Box 180"]),
   ("AMZ In Stock %", ["Buy Box: % Amazon 90 days", "AMZ In Stock %"]),
   ("Amazon Availability", ["Amazon: Availability of the Amazon offer", "Amazon Availability"]),
   ("FBA", ["Count of retrieved live offers: New, FBA", "FBA", "FBA Sellers"]),
   ("FBM", ["Count of retrieved live offers: New, FBM", "FBM", "FBM Sellers"]),
   ("Pick & Pack", ["FBA Pick&Pack Fee", "Pick & Pack Fee", "Fulfillment Fee"]),
   ("Referral Fee &", ["Referral Fee %", "Referral Fee"]),
   ("In Stock", ["In Stock", "Stock", "Quantity", "QTY", "Available"]),
   ("Sales", ["Sales", "Units Sold", "Sold", "Monthly Sales"])]

/-- Cost-file column patterns, COST_PATTERNS in src/lib/utils.ts. -/
def COST_PATTERNS : List (String × List String) :=
  [("Imported by Code", ["Imported by Code", "Import Code", "UPC", "GTIN", "EAN", "Product ID", "Barcode", "External ID"]),
   ("COST", ["Cost", "Price", "Unit Cost", "Wholesale Price", "WSP"]),
   ("MSRP", ["MSRP", "Retail Price", "Retail", "RRP"])]

/-- Pass 1 header scan of detectColumns: first unused header whose
canonical form equals one of the canonical patterns. -/
def findHeaderExact (canonPats : List String) (used : List String) :
    List (String × String) → Option String
  | [] => none
  | (orig, canon) :: rest =>
    if used.contains orig then findHeaderExact canonPats used rest
    else if canonPats.contains canon then some orig
    else findHeaderExact canonPats used rest

/-- Pass 2 header scan of detectColumns: first unused header whose
canonical form contains or is contained in one of the canonical
patterns. -/
def findHeaderFuzzy (canonPats : List String) (used : List String) :
    List (String × String) → Option String
  | [] => none
  | (orig, canon) :: rest =>
    if used.contains orig then findHeaderFuzzy canonPats used rest
    else if canonPats.any (fun p => strIncludes canon p || strIncludes p canon) then some orig
    else findHeaderFuzzy canonPats used rest

/-- Source: detectColumns in src/lib/processor.ts.  Two greedy passes
(canonical exact match, then canonical substring match), each header
assigned at most once across the whole run. -/
def detectColumns (headers : List String) (patterns : List (String × List String)) : JMap :=
  if headers = [] then []
  else
    let hs := headers.map (fun h => (h, canonicalize h))
    let st1 := patterns.foldl
      (fun st entry =>
        let canonPats := entry.2.map canonicalize
        match findHeaderExact canonPats st.2 hs with
        | some orig => (st.1 ++ [(entry.1, orig)], st.2 ++ [orig])
        | none => st)
      (([] : JMap), ([] : List String))
    let st2 := patterns.foldl
      (fun st entry =>
        if truthyS (alookup st.1 entry.1) then st
        else
          let canonPats := entry.2.map canonicalize
          match findHeaderFuzzy canonPats st.2 hs with
          | some orig => (st.1 ++ [(entry.1, orig)], st.2 ++ [orig])
          | none => st)
      st1
    st2.1

/-- A ProductData record after ingestion.  Field names follow the
standard field names of processor.ts: importedByCode is "Imported by
Code", pickPack is "Pick & Pack", referralFee is "Referral Fee &",
amzInStockPct is "AMZ In Stock %", ratingCountChild is "Rating Count -
Child", priceUsedForBB is "Price Used For BB Profit" (the source stores
the toFixed(2) rendering of the number or the sentinel text "No
Buybox"; modelled as the underlying Option on the number).  The _styles
side-map is the styles association list (column name to comment text);
cost-file pass-through columns land in extras.  The purely
presentational margin columns (Profit Margin (Buybox), Profit Margin
(MSRP), MSRP Difference), the rating-intelligence columns and the
In Stock / Sales columns of the optional stock merge, which no claim
mentions and no profitability computation reads, are not modelled. -/
structure ProductData where
  brand : Option String := none
  parent : Option String := none
  asin : Option String := none
  importedByCode : Option String := none
  title : Option String := none
  color : Option String := none
  size : Option String := none
  salesBadge : Option String := none
  amazonAvailability : Option String := none
  buyBox : ℚ := 0
  buyBox30 : ℚ := 0
  buyBox90 : ℚ := 0
  buyBox180 : ℚ := 0
  salesRank : ℚ := 0
  salesRank30 : ℚ := 0
  salesRank90 : ℚ := 0
  pickPack : ℚ := 0
  referralFee : ℚ := 0
  ratingCount : ℚ := 0
  ratingCountChild : ℚ := 0
  fba : ℚ := 0
  fbm : ℚ := 0
  amzInStockPct : ℚ := 0
  cost : ℚ := 0
  msrp : ℚ := 0
  profit : ℚ := 0
  roi : ℚ := 0
  marginDiv : ℚ := 0
  priceUsedForBB : Option ℚ := none
  isBestVariant : Bool := false
  extras : List (String × String) := []
  styles : List (String × String) := []
deriving DecidableEq

/-- The raw cell a mapped standard field copies from: row[mapping[std]],
undefined when the field is unmapped or the header absent. -/
def rawCell (row : JRow) (mapping : JMap) (std : String) : Option String :=
  match alookup mapping std with
  | none => none
  | some orig => alookup row orig

/-- Numeric sanitation of one cell in mapAndSanitize:
parseFloat(String(v || "").replace(/[^0-9.]/g, "")), NaN coerced to 0. -/
def sanitizeNum (v : Option String) : ℚ :=
  (parseFloatStripped (stripToNumeric (v.getD ""))).getD 0

/-- Percentage sanitation in mapAndSanitize: parsed values above 1 are
divided by 100. -/
def sanitizePct (v : Option String) : ℚ :=
  let q := sanitizeNum v
  if 1 < q then q / 100 else q

/-- Source: mapAndSanitize in src/lib/processor.ts, per row.  Copies
every mapped standard field from the raw row, cleans the identifier when
truthy, and coerces the fixed list of numeric fields.  The mapping keys
reachable in the program are the standard main-table fields (the keys of
COLUMN_PATTERNS, which detectColumns and the UI produce); those are
exactly the fields modelled here.  COST and MSRP are initialized to 0. -/
def mapAndSanitizeRow (mapping : JMap) (row : JRow) : ProductData :=
  { brand := rawCell row mapping "Brand"
    parent := rawCell row mapping "Parent"
    asin := rawCell row mapping "ASIN"
    importedByCode :=
      match rawCell row mapping "Imported by Code" with
      | none => none
      | some s => some (if s = "" then s else cleanProductCode (some s))
    title := rawCell row mapping "Title"
    color := rawCell row mapping "Color"
    size := rawCell row mapping "Size"
    salesBadge := rawCell row mapping "Sales Badge"
    amazonAvailability := rawCell row mapping "Amazon Availability"
    buyBox := sanitizeNum (rawCell row mapping "Buy Box")
    buyBox30 := sanitizeNum (rawCell row mapping "Buy Box 30")
    buyBox90 := sanitizeNum (rawCell row mapping "Buy Box 90")
    buyBox180 := sanitizeNum (rawCell row mapping "Buy Box 180")
    salesRank := sanitizeNum (rawCell row mapping "Sales Rank")
    salesRank30 := sanitizeNum (rawCell row mapping "Sales Rank 30")
    salesRank90 := sanitizeNum (rawCell row mapping "Sales Rank 90")
    pickPack := sanitizeNum (rawCell row mapping "Pick & Pack")
    referralFee := sanitizePct (rawCell row mapping "Referral Fee &")
    ratingCount := sanitizeNum (rawCell row mapping "Rating Count")
    ratingCountChild := sanitizeNum (rawCell row mapping "Rating Count - Child")
    fba := sanitizeNum (rawCell row mapping "FBA")
    fbm := sanitizeNum (rawCell row mapping "FBM")
    amzInStockPct := sanitizePct (rawCell row mapping "AMZ In Stock %")
    cost := 0
    msrp := 0 }

/-- Source: mapAndSanitize over all rows (the chunked yielding is a
scheduling concern with no effect on the result). -/
def mapAndSanitize (rows : List JRow) (mapping : JMap) : List ProductData :=
  rows.map (mapAndSanitizeRow mapping)

/-- Dedup key of a record: its ASIN when truthy (step 2 of processData
tests if (item.ASIN)). -/
def asinKey (r : ProductData) : Option String :=
  match r.asin with
  | none => none
  | some a => if a = "" then none else some a

/-- Source: step 2 of processData in src/lib/processor.ts, the
duplicate-removal scan with its growing seen set. -/
def dedupeByAsin (seen : List String) : List ProductData → List ProductData
  | [] => []
  | r :: rest =>
    match asinKey r with
    | some a =>
      if seen.contains a then dedupeByAsin seen rest
      else r :: dedupeByAsin (a :: seen) rest
    | none => r :: dedupeByAsin seen rest

/-- Source: step 3 of processData: rows lacking Brand, Parent, ASIN and
Title simultaneously are dropped. -/
def removeInvalid (l : List ProductData) : List ProductData :=
  l.filter (fun r => truthyS r.brand || truthyS r.parent || truthyS r.asin || truthyS r.title)

/-- Entry of the cost lookup built by integrateCosts. -/
structure CostEntry where
  c : ℚ
  m : ℚ
  extras : List (String × String)
deriving DecidableEq

/-- Overwriting set on an association list, modelling Map.set and plain
object key assignment. -/
def amSet (m : List (String × CostEntry)) (k : String) (v : CostEntry) :
    List (String × CostEntry) :=
  (k, v) :: m.filter (fun p => p.1 != k)

/-- Lookup on the cost map, modelling Map.get (none is undefined). -/
def amGet (m : List (String × CostEntry)) (k : String) : Option CostEntry :=
  (m.find? (fun p => p.1 == k)).map (fun p => p.2)

/-- Overwriting set on a string-valued association list (used for the
_styles side-map and the extras bag merged by Object.assign). -/
def sSet (m : List (String × String)) (k v : String) : List (String × String) :=
  (k, v) :: m.filter (fun p => p.1 != k)

/-- Deletion on a string-valued association list (delete obj[k]). -/
def sDel (m : List (String × String)) (k : String) : List (String × String) :=
  m.filter (fun p => p.1 != k)

/-- Lookup on a string-valued association list (reading obj[k]). -/
def sGet (m : List (String × String)) (k : String) : Option String :=
  (m.find? (fun p => p.1 == k)).map (fun p => p.2)

/-- Money parse in integrateCosts:
parseFloat(String(row[key] || "0").replace(/[^0-9.]/g, "")) || 0. -/
def parsedMoney (v : Option String) : ℚ :=
  (parseFloatStripped (stripToNumeric (jsOrS v "0"))).getD 0

/-- Pass-through cell capture in integrateCosts: extras[k] = row[k] for
every extra column whose cell is defined and not the empty string. -/
def rowExtras (extraKeys : List String) (row : JRow) : List (String × String) :=
  extraKeys.filterMap (fun k =>
    match alookup row k with
    | some v => if v = "" then none else some (k, v)
    | none => none)

/-- One cost row folded into the cost lookup (body of the
costData.forEach in integrateCosts): all-empty rows are skipped, then
the cleaned identifier, when truthy and nonempty, is mapped to the
entry. -/
def costMapStep (costKey msrpKey upcKey : String) (extraKeys : List String)
    (m : List (String × CostEntry)) (row : JRow) : List (String × CostEntry) :=
  let c := parsedMoney (alookup row costKey)
  let mq := parsedMoney (alookup row msrpKey)
  let extras := rowExtras extraKeys row
  if c = 0 ∧ mq = 0 ∧ extras = [] then m
  else
    match alookup row upcKey with
    | some s =>
      if s = "" then m
      else
        let exactCode := cleanProductCode (some s)
        if exactCode = "" then m else amSet m exactCode ⟨c, mq, extras⟩
    | none => m

/-- The cost lookup of integrateCosts, folded over the cost rows. -/
def buildCostMap (costKey msrpKey upcKey : String) (extraKeys : List String)
    (rows : List JRow) : List (String × CostEntry) :=
  rows.foldl (costMapStep costKey msrpKey upcKey extraKeys) []

/-- Per-record merge step of integrateCosts: on a hit by the record's
identifier, COST becomes matched cost plus shipping plus misc, MSRP is
taken from the match, extras are merged and a stale COST style is
deleted; on a miss, shipping and misc are still added to the prior COST
and (when cost rows were supplied) the record is flagged No Cost
Found. -/
def applyCostRow (costMap : List (String × CostEntry)) (hasCostRows : Bool)
    (shipping misc : ℚ) (item : ProductData) : ProductData :=
  let itemUpc := jsOrS item.importedByCode ""
  match (if itemUpc = "" then none else amGet costMap itemUpc) with
  | some entry =>
    { item with
      cost := entry.c + shipping + misc
      msrp := entry.m
      extras := entry.extras.foldl (fun e p => sSet e p.1 p.2) item.extras
      styles := sDel item.styles "COST" }
  | none =>
    { item with
      cost := jsOrQ item.cost 0 + shipping + misc
      styles := if hasCostRows then sSet item.styles "COST" "No Cost Found" else item.styles }

/-- Cost column key of the cost file: mapping["COST"] || "COST". -/
def costKeyOf (mapping : JMap) : String := jsOrS (alookup mapping "COST") "COST"

/-- MSRP column key of the cost file: mapping["MSRP"] || "MSRP". -/
def msrpKeyOf (mapping : JMap) : String := jsOrS (alookup mapping "MSRP") "MSRP"

/-- Identifier column key of the cost file:
mapping["Imported by Code"] || "Imported by Code". -/
def upcKeyOf (mapping : JMap) : String :=
  jsOrS (alookup mapping "Imported by Code") "Imported by Code"

/-- Pass-through column manifest: the first cost row's headers that are
not the three mapped core keys. -/
def extraKeysOf (rows : List JRow) (mapping : JMap) : List String :=
  ((rows.headD []).map (fun p => p.1)).filter
    (fun h => !([costKeyOf mapping, msrpKeyOf mapping, upcKeyOf mapping].contains h))

/-- Source: integrateCosts in src/lib/processor.ts.  Without a cost
table (or mapping), shipping and misc are added to every COST; with
one, the cost lookup is built (keys from the mapped columns with the
literal fallbacks of the source) and merged per record.  Also returns
the extra pass-through column manifest. -/
def integrateCosts (processed : List ProductData)
    (costData : Option (List JRow × JMap)) (shipping misc : ℚ) :
    List ProductData × List String :=
  match costData with
  | none =>
    (processed.map (fun item => { item with cost := jsOrQ item.cost 0 + shipping + misc }), [])
  | some (rows, mapping) =>
    let costMap := buildCostMap (costKeyOf mapping) (msrpKeyOf mapping) (upcKeyOf mapping)
      (extraKeysOf rows mapping) rows
    (processed.map (applyCostRow costMap (!rows.isEmpty) shipping misc), extraKeysOf rows mapping)

/-- Source: getBuyBoxWaterfallPrice in src/lib/processor.ts: first
strictly positive Buy Box price in the fixed current/30/90/180 order. -/
def getBuyBoxWaterfallPrice (row : ProductData) : Option ℚ :=
  if 0 < row.buyBox then some row.buyBox
  else if 0 < row.buyBox30 then some row.buyBox30
  else if 0 < row.buyBox90 then some row.buyBox90
  else if 0 < row.buyBox180 then some row.buyBox180
  else none

/-- Source: getSalePrice in src/lib/processor.ts: the Buy Box waterfall
price when truthy, else MSRP when positive, else no price. -/
def getSalePrice (row : ProductData) : Option ℚ :=
  match getBuyBoxWaterfallPrice row with
  | some bb => if bb ≠ 0 then some bb else if 0 < row.msrp then some row.msrp else none
  | none => if 0 < row.msrp then some row.msrp else none

/-- Source: calculateProfit in src/lib/processor.ts. -/
def calculateProfit (row : ProductData) : ℚ :=
  let cost := jsOrQ row.cost 0 + jsOrQ row.pickPack 0
  match getSalePrice row with
  | none => -cost
  | some price =>
    if price = 0 then -cost
    else
      let referralFee := jsOrQ row.referralFee 0.15
      price * (1 - referralFee) - cost

/-- Source: calculateROI in src/lib/processor.ts. -/
def calculateROI (profit cost : ℚ) : ℚ :=
  if cost = 0 then 0 else profit / cost * 100

/-- Running maximum of Rating Count - Child over a group (the first
loop of processGroup in processBrainOptimized). -/
def groupMaxChild (group : List ProductData) : ℚ :=
  group.foldl (fun acc r => if acc < jsOrQ r.ratingCountChild 0 then jsOrQ r.ratingCountChild 0 else acc) 0

/-- Sort key of the winner tie-break: Sales Rank with the 9999999
sentinel for a falsy rank. -/
def rankSentinel (r : ProductData) : ℚ := jsOrQ r.salesRank 9999999

/-- Index of the best variant of a group: among the records whose
Rating Count - Child equals the positive group maximum, the earliest
one of lowest Sales Rank (winners.sort(by rank)[0] under the stable JS
sort, with object identity modelled by position). -/
def bestIndex (group : List ProductData) : Option ℕ :=
  let m := groupMaxChild group
  let winners := group.enum.filter (fun p => jsOrQ p.2.ratingCountChild 0 = m ∧ 0 < m)
  (winners.foldl (fun acc p =>
    match acc with
    | none => some p
    | some q => if rankSentinel p.2 < rankSentinel q.2 then some p else some q) none).map (fun p => p.1)

/-- Default-fee backfill of processBrainOptimized: zero or absent Pick &
Pack becomes 7.00, zero or absent Referral Fee becomes 0.15, each
flagged in the styles side-map. -/
def defaultFees (item : ProductData) : ProductData :=
  let item :=
    if item.pickPack = 0 then
      { item with pickPack := 7, styles := sSet item.styles "Pick & Pack" "Assumed $7.00 fee" }
    else item
  if item.referralFee = 0 then
    { item with referralFee := 0.15, styles := sSet item.styles "Referral Fee &" "Assumed 15% referral" }
  else item

/-- Per-record body of processGroup: backfills fees, flags the best
variant, records the Buy-Box price used, and computes Profit, ROI and
Margin Div (the presentational margin columns are not modelled). -/
def brainItem (isBest : Bool) (item0 : ProductData) : ProductData :=
  let item := defaultFees item0
  let item :=
    if isBest then
      { item with isBestVariant := true, styles := sSet item.styles "Color" "Best Variant" }
    else item
  let bb := getBuyBoxWaterfallPrice item
  let item := { item with priceUsedForBB := bb }
  let profit := calculateProfit item
  let roi := calculateROI profit (jsOrQ item.cost 0)
  let finalPrice := (bb.getD 0)
  let finalCost := jsOrQ item.cost 0
  let marginDiv := if 0 < finalCost ∧ 0 < finalPrice then finalPrice / finalCost * 100 else 0
  { item with profit := profit, roi := roi, marginDiv := marginDiv }

/-- Source: processGroup in processBrainOptimized, with object identity
of the best winner modelled by position in the group. -/
def processGroup (group : List ProductData) : List ProductData :=
  group.enum.map (fun p => brainItem (bestIndex group = some p.1) p.2)

/-- Group key of the linear scan: Parent with the unassigned
sentinel. -/
def parentKey (r : ProductData) : String := jsOrS r.parent "unassigned"

/-- Maximal contiguous runs of records sharing a parent key (the linear
scan of processBrainOptimized over the pre-sorted list). -/
def splitRuns : List ProductData → List (List ProductData)
  | [] => []
  | r :: rest =>
    match splitRuns rest with
    | [] => [[r]]
    | g :: gs =>
      match g with
      | [] => [r] :: gs
      | s :: _ => if parentKey r = parentKey s then (r :: g) :: gs else [r] :: g :: gs

/-- Source: processBrainOptimized in src/lib/processor.ts: each
contiguous parent group is processed in place. -/
def processBrain (l : List ProductData) : List ProductData :=
  (splitRuns l).flatMap processGroup

/-- Sort relation of step 6 of processData: by Parent, then Color, with
empty string for missing values; locale comparison is modelled as
code-point order (all values in scope are plain ASCII).  The non-strict
form makes the stable sort leave tied records in input order, as the JS
stable sort does. -/
def catalogLe (a b : ProductData) : Prop :=
  jsOrS a.parent "" < jsOrS b.parent "" ∨
    (jsOrS a.parent "" = jsOrS b.parent "" ∧ jsOrS a.color "" ≤ jsOrS b.color "")

instance : DecidableRel catalogLe := fun a b => by
  unfold catalogLe; infer_instance

/-- Source: processData in src/lib/processor.ts restricted to the
stages the claims exercise: ingestion, ASIN dedup, noise removal, cost
integration, the (Parent, Color) sort and the profitability brain.  The
optional stock merge (absent in every claim) and the rating-intelligence
pass (which only writes the unmodelled rating columns) are omitted; the
JS stable sort is modelled by insertion sort on the non-strict sort
relation.  Returns the records and the extra-column manifest. -/
def processDataCore (mainData : List JRow) (mapping : JMap)
    (costData : Option (List JRow × JMap)) (shipping misc : ℚ) :
    List ProductData × List String :=
  let processed := mapAndSanitize mainData mapping
  let processed := dedupeByAsin [] processed
  let processed := removeInvalid processed
  let pair := integrateCosts processed costData shipping misc
  let processed := List.insertionSort catalogLe pair.1
  (processBrain processed, pair.2)

/-- Order line produced by the order builder: the source spreads the
product into the item; modelled as a product field plus the three added
fields. -/
structure OrderItem where
  product : ProductData
  units : ℕ
  totalCost : ℚ
  estProfit : ℚ
deriving DecidableEq

/-- Amazon-availability exclusion of generateOrder: the lowercased text
contains both "in stock" and "shippable". -/
def amzInStock (p : ProductData) : Bool :=
  let s := jsToLower (jsOrS p.amazonAvailability "")
  strIncludes s "in stock" && strIncludes s "shippable"

/-- Eligibility filter of generateOrder in src/lib/orderBuilder.ts. -/
def eligible (p : ProductData) : Bool :=
  !amzInStock p && decide (0 < jsOrQ p.roi 0) && decide (0 < jsOrQ p.profit 0) &&
    decide (0 < jsOrQ p.cost 0)

/-- Lowercased sales-badge text of a record. -/
def badgeText (p : ProductData) : String := jsToLower (jsOrS p.salesBadge "")

/-- Rank extraction of generateOrder:
parseInt(String(p["Sales Rank"] || "1000000").replace(/[^0-9]/g, "")) || 1000000. -/
def orderRank (p : ProductData) : ℕ :=
  let base := if p.salesRank = 0 then 1000000 else jsDigitsValue p.salesRank
  if base = 0 then 1000000 else base

/-- Review count used as the scoring tie-breaker: the two rating-count
fields read back through parseInt (|| 0 on each summand). -/
def orderReviews (p : ProductData) : ℕ :=
  jsDigitsValue p.ratingCount + jsDigitsValue p.ratingCountChild

/-- Badge test of the scoring step: the lowercased badge text contains
"bought" or is simply nonempty. -/
def hasBadgeB (p : ProductData) : Bool :=
  strIncludes (badgeText p) "bought" || (badgeText p).length > 0

/-- Scoring of generateOrder: badge bonus, capped inverted rank,
capped reviews. -/
def score (p : ProductData) : ℚ :=
  let base : ℚ := if hasBadgeB p then 10000 else 0
  let rankScore : ℚ := max 0 ((500000 - (orderRank p : ℚ)) / 100)
  base + rankScore + min (orderReviews p : ℚ) 1000 / 10

/-- Descending-score order of the scored candidates; the non-strict
form matches the stable JS sort with comparator (a, b) => b.score -
a.score. -/
def scoreLe (a b : ProductData × ℚ) : Prop := b.2 ≤ a.2

instance : DecidableRel scoreLe := fun a b => by
  unfold scoreLe; infer_instance

/-- Unit cap of the allocation walk: 8 for badged items, 4 below rank
100000, else 2. -/
def maxUnitsFor (p : ProductData) : ℕ :=
  if (badgeText p).length > 0 then 8
  else if orderRank p < 100000 then 4
  else 2

/-- Budget-allocation walk of generateOrder (step 3): stop once spend
reaches the budget, skip items whose single unit exceeds the remaining
budget, otherwise buy min(cap, floor(remaining / cost)) units. -/
def allocate (budget : ℚ) : List ProductData → ℚ → List OrderItem
  | [], _ => []
  | p :: rest, spend =>
    if budget ≤ spend then []
    else
      let cost := jsOrQ p.cost 0
      if cost ≤ 0 then allocate budget rest spend
      else if budget < spend + cost then allocate budget rest spend
      else
        let affordable : ℤ := ⌊(budget - spend) / cost⌋
        let units : ℤ := min (maxUnitsFor p : ℤ) affordable
        if 0 < units then
          ⟨p, units.toNat, (units : ℚ) * cost, (units : ℚ) * jsOrQ p.profit 0⟩ ::
            allocate budget rest (spend + (units : ℚ) * cost)
        else allocate budget rest spend

/-- Source: generateOrder in src/lib/orderBuilder.ts: filter, score,
stable-sort descending by score, then the greedy allocation walk. -/
def generateOrder (products : List ProductData) (budget : ℚ) : List OrderItem :=
  let candidates := products.filter eligible
  let scored := candidates.map (fun p => (p, score p))
  let sorted := List.insertionSort scoreLe scored
  allocate budget (sorted.map (fun p => p.1)) 0

/-- Total units purchased over an order. -/
def totalUnits (items : List OrderItem) : ℕ := (items.map (fun i => i.units)).sum

/-- Total spend over an order (sum of TotalCost). -/
def totalSpend (items : List OrderItem) : ℚ := (items.map (fun i => i.totalCost)).sum

/-- Total estimated profit over an order (sum of EstProfit). -/
def totalEstProfit (items : List OrderItem) : ℚ := (items.map (fun i => i.estProfit)).sum

/-- C4 witness record: Buy Box 10, fee 0.15, COST 3, Pick and Pack 7. -/
def profitWitnessRec : ProductData := { buyBox := 10, referralFee := 3/20, cost := 3, pickPack := 7 }

/-- Specification-side dedup, written from the spec text: keep each
record in scan order, dropping every later record that shares its
nonempty ASIN; empty-ASIN records are always kept. -/
def dedupSpec : List ProductData → List ProductData
  | [] => []
  | r :: rest =>
    match asinKey r with
    | some a => r :: dedupSpec (rest.filter (fun x => asinKey x != some a))
    | none => r :: dedupSpec rest
termination_by l => l.length
decreasing_by
  · exact Nat.lt_succ_of_le (List.length_filter_le _ _)
  · exact Nat.lt_succ_of_le (le_refl _)

/-- Membership test of the growing seen set of the dedup scan. -/
def seenPred (seen : List String) (r : ProductData) : Bool :=
  match asinKey r with
  | some a => !seen.contains a
  | none => true

/-- C6 example records: two sharing ASIN B001 and one with an empty
ASIN. -/
def dupRecA : ProductData := { asin := some "B001", title := some "first" }

/-- Second record with the duplicated ASIN. -/
def dupRecB : ProductData := { asin := some "B001", title := some "second" }

/-- Record with an empty ASIN, never deduplicated. -/
def emptyAsinRec : ProductData := { asin := some "" }

/-- C7 witness record: an eligible product of unit cost 2. -/
def orderBoundW : ProductData := { cost := 2, profit := 3, roi := 150 }

/-- C2 counterexample records: a badged, expensive, low-profit product
that outscores a cheap, high-profit one. -/
def badgeRec : ProductData := { cost := 10, profit := 1, roi := 10, salesBadge := some "100+ bought" }

/-- Cheap high-profit record outscored by the badge record. -/
def cheapRec : ProductData := { cost := 1, profit := 5, roi := 500 }

/-- C10 witness cost row: zero cost, empty MSRP cell, no extra
columns. -/
def c10row : JRow := [("UPC", "X1"), ("Cost", "0"), ("MSRP", "")]

/-- C10 witness cost mapping. -/
def c10mapping : JMap := [("Imported by Code", "UPC"), ("COST", "Cost"), ("MSRP", "MSRP")]

/-- C10 witness main record whose identifier matches only the empty
row. -/
def c10item : ProductData := { importedByCode := some "X1", cost := 2 }

/-- C1 scenario: headers of the single-row main file. -/
def mainHeaders : List String := ["ASIN", "Parent", "Brand", "Title", "Color", "Sales Rank", "Buy Box"]

/-- C1 scenario: the main-file row. -/
def mainRow : JRow := [("ASIN", "A1"), ("Parent", "P1"), ("Brand", "X"), ("Title", "T1"),
  ("Color", "Red"), ("Sales Rank", "50,000"), ("Buy Box", "$10.00")]

/-- C1 scenario: headers of the cost file. -/
def costHeaders : List String := ["UPC", "Cost", "MSRP"]

/-- C1 scenario: the cost-file row. -/
def costRow : JRow := [("UPC", "A1"), ("Cost", "4.00"), ("MSRP", "15.00")]

/-- Auto-detected mapping of the main file. -/
def mainMapping : JMap := detectColumns mainHeaders COLUMN_PATTERNS

/-- Auto-detected mapping of the cost file. -/
def costMapping : JMap := detectColumns costHeaders COST_PATTERNS

/-- The pipeline output on the C1 scenario. -/
def e2eResult : List ProductData :=
  (processDataCore [mainRow] mainMapping (some ([costRow], costMapping)) 1 (1/2)).1

/-- The sanitized main record of the scenario. -/
def e2eSan : ProductData :=
  { brand := some "X"
    parent := some "P1"
    asin := some "A1"
    title := some "T1"
    color := some "Red"
    buyBox := 10
    salesRank := 50000 }

/-- The scenario record after cost integration: the join misses (the
main table has no identifier column), so COST is 0 plus shipping 1 plus
misc 0.5 and the record is flagged. -/
def e2eCosted : ProductData :=
  { e2eSan with
    cost := 3/2
    styles := [("COST", "No Cost Found")] }

/-- The fully processed scenario record. -/
def e2eFinal : ProductData :=
  { e2eSan with
    cost := 3/2
    pickPack := 7
    referralFee := 3/20
    priceUsedForBB := some 10
    profit := 0
    roi := 0
    marginDiv := 2000/3
    styles := [("Referral Fee &", "Assumed 15% referral"), ("Pick & Pack", "Assumed $7.00 fee"),
      ("COST", "No Cost Found")] }

/-! Lemmas and claim theorems. -/

theorem jsOrQ_zero (a : ℚ) : jsOrQ a 0 = a := by
  unfold jsOrQ; split <;> simp_all

theorem getBuyBoxWaterfallPrice_pos (r : ProductData) (p : ℚ)
    (h : getBuyBoxWaterfallPrice r = some p) : 0 < p := by
  unfold getBuyBoxWaterfallPrice at h
  split_ifs at h <;> simp_all

theorem getSalePrice_pos (r : ProductData) (p : ℚ)
    (h : getSalePrice r = some p) : 0 < p := by
  unfold getSalePrice at h
  rcases hbb : getBuyBoxWaterfallPrice r with _ | bb <;> rw [hbb] at h
  · split_ifs at h <;> simp_all
  · have hbbpos := getBuyBoxWaterfallPrice_pos r bb hbb
    dsimp only at h
    rw [if_pos hbbpos.ne'] at h
    simp_all

theorem parseFloatStripped_nonneg (cs : List Char) (q : ℚ)
    (h : parseFloatStripped cs = some q) : 0 ≤ q := by
  unfold parseFloatStripped at h
  dsimp only at h
  split_ifs at h
  rw [← Option.some_inj.mp h]
  positivity

theorem sanitizeNum_nonneg (v : Option String) : 0 ≤ sanitizeNum v := by
  unfold sanitizeNum
  rcases h : parseFloatStripped (stripToNumeric (v.getD "")) with _ | q
  · simp
  · simpa using parseFloatStripped_nonneg _ q h

/-- C8: for every profit value and cost value, calculateROI is
100 * profit / cost when the cost is nonzero and 0 when the cost is 0,
so the zero-cost division is special-cased away. -/
theorem C8_roi_zero_cost_safe (profit cost : ℚ) :
    (cost = 0 → calculateROI profit cost = 0) ∧
    (cost ≠ 0 → calculateROI profit cost = 100 * profit / cost) := by
  constructor <;> intro h <;> simp [calculateROI, h] <;> ring

/-- C8 witness at cost 0 and at cost 2. -/
theorem C8_roi_zero_cost_safe_witness :
    calculateROI 7 0 = 0 ∧ calculateROI 7 2 = 100 * 7 / 2 :=
  ⟨(C8_roi_zero_cost_safe 7 0).1 rfl, (C8_roi_zero_cost_safe 7 2).2 (by norm_num)⟩

/-- C5: getSalePrice returns the first strictly positive value among
Buy Box, Buy Box 30, Buy Box 90, Buy Box 180 in that order, else MSRP
when positive, else no price; with the three concrete scenarios of the
claim. -/
theorem C5_sale_price_waterfall :
    (∀ r : ProductData, getSalePrice r =
      match [r.buyBox, r.buyBox30, r.buyBox90, r.buyBox180].find? (fun q => decide (0 < q)) with
      | some p => some p
      | none => if 0 < r.msrp then some r.msrp else none) ∧
    getSalePrice { buyBox90 := 25/2, msrp := 20 } = some (25/2) ∧
    getSalePrice { msrp := 20 } = some 20 ∧
    getSalePrice {} = none := by
  refine ⟨fun r => ?_, ?_, ?_, ?_⟩
  · unfold getSalePrice getBuyBoxWaterfallPrice
    by_cases h1 : 0 < r.buyBox
    · simp [h1, ne_of_gt h1, List.find?]
    · by_cases h2 : 0 < r.buyBox30
      · simp [h1, h2, ne_of_gt h2, List.find?]
      · by_cases h3 : 0 < r.buyBox90
        · simp [h1, h2, h3, ne_of_gt h3, List.find?]
        · by_cases h4 : 0 < r.buyBox180
          · simp [h1, h2, h3, h4, ne_of_gt h4, List.find?]
          · simp [h1, h2, h3, h4, List.find?]
  · norm_num [getSalePrice, getBuyBoxWaterfallPrice]
  · norm_num [getSalePrice, getBuyBoxWaterfallPrice]
  · norm_num [getSalePrice, getBuyBoxWaterfallPrice]

/-- C4: with a backfilled (nonzero) referral fee, Profit is
price * (1 - referralFee) - (COST + PickPack) when the waterfall yields
a price and -(COST + PickPack) when it yields none. -/
theorem C4_profit_formula (r : ProductData) (h : r.referralFee ≠ 0) :
    (∀ p, getSalePrice r = some p →
      calculateProfit r = p * (1 - r.referralFee) - (r.cost + r.pickPack)) ∧
    (getSalePrice r = none → calculateProfit r = -(r.cost + r.pickPack)) := by
  constructor
  · intro p hp
    have hpos : 0 < p := getSalePrice_pos r p hp
    simp only [calculateProfit, hp, jsOrQ_zero]
    rw [if_neg hpos.ne']
    unfold jsOrQ
    rw [if_neg h]
  · intro hn
    simp only [calculateProfit, hn, jsOrQ_zero]

/-- C4 witness: the priced branch of the profit formula at a concrete
record. -/
theorem C4_profit_formula_witness :
    calculateProfit profitWitnessRec =
      10 * (1 - profitWitnessRec.referralFee) - (profitWitnessRec.cost + profitWitnessRec.pickPack) :=
  (C4_profit_formula profitWitnessRec (by norm_num [profitWitnessRec])).1 10
    (by norm_num [getSalePrice, getBuyBoxWaterfallPrice, profitWitnessRec])

theorem endsDotZero_split (cs : List Char) (h : endsDotZero cs = true) :
    cs.take (cs.length - 2) ++ ['.', '0'] = cs := by
  rcases hr : cs.reverse with _ | ⟨c0, rest⟩
  · unfold endsDotZero at h; rw [hr] at h; simp [leadsWith] at h
  · rcases rest with _ | ⟨c1, t⟩
    · unfold endsDotZero at h; rw [hr] at h; simp [leadsWith] at h
    · unfold endsDotZero at h; rw [hr] at h
      simp only [leadsWith, Bool.and_eq_true, beq_iff_eq] at h
      obtain ⟨h0, h1, -⟩ := h
      have hcs : cs = t.reverse ++ ['.', '0'] := by
        have h2 := congrArg List.reverse hr
        simp only [List.reverse_reverse, List.reverse_cons] at h2
        rw [h2, ← h0, ← h1]
        simp
      rw [hcs]
      have hlen : (t.reverse ++ ['.', '0']).length - 2 = t.reverse.length := by simp
      rw [hlen, List.take_left]

/-- C9 counterexample: the sentinel comparison happens on the raw
string, so a value that is case-insensitively nan only after trimming is
kept, while the claim as stated requires the empty string. -/
theorem C9_counterexample :
    jsTrim " nan" = "nan" ∧ jsToLower (jsTrim " nan") = "nan" ∧
      cleanProductCode (some " nan") = "nan" ∧ ("nan" : String) ≠ "" := by
  refine ⟨?_, ?_, ?_, ?_⟩ <;> decide

/-- C9 amended: cleanProductCode returns the empty string when the value
is undefined, empty, or case-insensitively equal to nan, none or null
BEFORE trimming; otherwise it trims, strips one trailing ".0" when
present, and otherwise returns the trimmed string unmodified with case
preserved. -/
theorem C9_cleanProductCode_amended :
    cleanProductCode none = "" ∧
    (∀ s : String,
      (s = "" ∨ jsToLower s = "nan" ∨ jsToLower s = "none" ∨ jsToLower s = "null") →
        cleanProductCode (some s) = "") ∧
    (∀ s : String,
      ¬(s = "" ∨ jsToLower s = "nan" ∨ jsToLower s = "none" ∨ jsToLower s = "null") →
        (endsDotZero (jsTrim s).data = false → cleanProductCode (some s) = jsTrim s) ∧
        (endsDotZero (jsTrim s).data = true →
          (cleanProductCode (some s)).data ++ ['.', '0'] = (jsTrim s).data)) := by
  refine ⟨rfl, fun s hs => ?_, fun s hs => ?_⟩
  · unfold cleanProductCode
    rcases hs with h | h | h | h <;> simp [h]
  · push_neg at hs
    obtain ⟨h1, h2, h3, h4⟩ := hs
    constructor
    · intro hdz
      unfold cleanProductCode
      dsimp only
      rw [if_neg (by simp [h1, h2, h3, h4]), if_neg (by simp [hdz])]
    · intro hdz
      unfold cleanProductCode
      dsimp only
      rw [if_neg (by simp [h1, h2, h3, h4]), if_pos hdz]
      exact endsDotZero_split (jsTrim s).data hdz

/-- C9 witness: the sentinel, plain and ".0"-stripping branches of the
amended characterization at concrete inputs. -/
theorem C9_cleanProductCode_amended_witness :
    cleanProductCode (some "NULL") = "" ∧
    cleanProductCode (some " AbC-9 ") = jsTrim " AbC-9 " ∧
    (cleanProductCode (some " 123.0")).data ++ ['.', '0'] = (jsTrim " 123.0").data :=
  ⟨C9_cleanProductCode_amended.2.1 "NULL" (by right; right; right; decide),
   (C9_cleanProductCode_amended.2.2 " AbC-9 " (by decide)).1 (by decide),
   (C9_cleanProductCode_amended.2.2 " 123.0" (by decide)).2 (by decide)⟩

theorem sanitizePct_nonneg (v : Option String) : 0 ≤ sanitizePct v := by
  unfold sanitizePct
  dsimp only
  split_ifs with h
  · have := sanitizeNum_nonneg v
    positivity
  · exact sanitizeNum_nonneg v

theorem sanitizePct_le_one (v : Option String) (h : sanitizeNum v ≤ 100) :
    sanitizePct v ≤ 1 := by
  unfold sanitizePct
  dsimp only
  split_ifs with h1
  · rw [div_le_one (by norm_num)]
    exact h
  · exact not_lt.mp h1

theorem mapAndSanitizeRow_referralFee (mapping : JMap) (row : JRow) :
    (mapAndSanitizeRow mapping row).referralFee = sanitizePct (rawCell row mapping "Referral Fee &") := rfl

theorem mapAndSanitizeRow_amzInStockPct (mapping : JMap) (row : JRow) :
    (mapAndSanitizeRow mapping row).amzInStockPct = sanitizePct (rawCell row mapping "AMZ In Stock %") := rfl

/-- C3 counterexample: a raw referral-fee cell of "250" is stored as
2.5, which does not lie in the unit interval. -/
theorem C3_counterexample :
    (mapAndSanitizeRow [("Referral Fee &", "fee")] [("fee", "250")]).referralFee = 5/2 ∧
    ¬((5 : ℚ)/2 ≤ 1) := by
  constructor
  · simp +decide [mapAndSanitizeRow_referralFee, sanitizePct, sanitizeNum, parseFloatStripped,
      stripToNumeric, digitsVal, rawCell, alookup] <;> norm_num
  · norm_num

/-- C3 amended: the two stored percentage fields are always nonnegative,
equal the parsed value divided by 100 exactly when the parsed value
exceeds 1, and lie in the unit interval whenever the parsed raw value is
at most 100 (in particular a raw "15" is stored as 0.15 and a raw
"0.15" is stored as 0.15 unchanged); a parsed value above 100 yields a
stored value above 1. -/
theorem C3_percentage_amended :
    (∀ (row : JRow) (mapping : JMap),
      0 ≤ (mapAndSanitizeRow mapping row).referralFee ∧
      0 ≤ (mapAndSanitizeRow mapping row).amzInStockPct) ∧
    (∀ (row : JRow) (mapping : JMap),
      (sanitizeNum (rawCell row mapping "Referral Fee &") ≤ 100 →
        (mapAndSanitizeRow mapping row).referralFee ≤ 1) ∧
      (sanitizeNum (rawCell row mapping "AMZ In Stock %") ≤ 100 →
        (mapAndSanitizeRow mapping row).amzInStockPct ≤ 1)) ∧
    (mapAndSanitizeRow [("Referral Fee &", "f")] [("f", "15")]).referralFee = 3/20 ∧
    (mapAndSanitizeRow [("Referral Fee &", "f")] [("f", "0.15")]).referralFee = 3/20 := by
  refine ⟨fun row mapping => ⟨?_, ?_⟩, fun row mapping => ⟨fun h => ?_, fun h => ?_⟩, ?_, ?_⟩
  · rw [mapAndSanitizeRow_referralFee]; exact sanitizePct_nonneg _
  · rw [mapAndSanitizeRow_amzInStockPct]; exact sanitizePct_nonneg _
  · rw [mapAndSanitizeRow_referralFee]; exact sanitizePct_le_one _ h
  · rw [mapAndSanitizeRow_amzInStockPct]; exact sanitizePct_le_one _ h
  · simp +decide [mapAndSanitizeRow_referralFee, sanitizePct, sanitizeNum, parseFloatStripped,
      stripToNumeric, digitsVal, rawCell, alookup] <;> norm_num
  · simp +decide [mapAndSanitizeRow_referralFee, sanitizePct, sanitizeNum, parseFloatStripped,
      stripToNumeric, digitsVal, rawCell, alookup] <;> norm_num

/-- C3 witness: the bounded branch of the amended claim at a raw cell
of "50". -/
theorem C3_percentage_amended_witness :
    (mapAndSanitizeRow [("Referral Fee &", "f")] [("f", "50")]).referralFee ≤ 1 :=
  (C3_percentage_amended.2.1 [("f", "50")] [("Referral Fee &", "f")]).1
    (by simp +decide [sanitizeNum, parseFloatStripped, stripToNumeric, digitsVal, rawCell,
          alookup] <;> norm_num)

theorem seenPred_cons (a : String) (seen : List String) (x : ProductData) :
    seenPred (a :: seen) x = (seenPred seen x && (asinKey x != some a)) := by
  unfold seenPred
  rcases asinKey x with _ | b
  · simp
  · simp only [List.contains_cons]
    cases hb : b == a <;> cases hc : seen.contains b <;> simp_all

theorem dedupSpec_nil : dedupSpec [] = [] := by
  rw [dedupSpec]

theorem dedupSpec_cons_some (r : ProductData) (rest : List ProductData) (a : String)
    (h : asinKey r = some a) :
    dedupSpec (r :: rest) = r :: dedupSpec (rest.filter (fun x => asinKey x != some a)) := by
  rw [dedupSpec, h]

theorem dedupSpec_cons_none (r : ProductData) (rest : List ProductData)
    (h : asinKey r = none) :
    dedupSpec (r :: rest) = r :: dedupSpec rest := by
  rw [dedupSpec, h]

theorem dedupeByAsin_aux (l : List ProductData) :
    ∀ seen : List String, dedupeByAsin seen l = dedupSpec (l.filter (seenPred seen)) := by
  induction l with
  | nil =>
    intro seen
    rw [List.filter_nil, dedupSpec_nil]
    rfl
  | cons r rest ih =>
    intro seen
    rcases hk : asinKey r with _ | a
    · have hp : seenPred seen r = true := by simp [seenPred, hk]
      rw [List.filter_cons_of_pos hp]
      rw [dedupSpec_cons_none r _ hk]
      unfold dedupeByAsin
      rw [hk, ih seen]
    · by_cases hc : seen.contains a = true
      · have hmem : a ∈ seen := by simpa using hc
        have hp : seenPred seen r = false := by simp [seenPred, hk, hmem]
        rw [List.filter_cons_of_neg (by simp [hp])]
        unfold dedupeByAsin
        rw [hk]
        dsimp only
        rw [if_pos hc]
        exact ih seen
      · have hmem : a ∉ seen := by simpa using hc
        have hp : seenPred seen r = true := by simp [seenPred, hk, hmem]
        rw [List.filter_cons_of_pos hp]
        rw [dedupSpec_cons_some r _ a hk]
        unfold dedupeByAsin
        rw [hk]
        dsimp only
        rw [if_neg hc]
        rw [ih (a :: seen)]
        congr 1
        rw [List.filter_filter]
        congr 1
        apply List.filter_congr
        intro x _
        rw [seenPred_cons]
        rw [Bool.and_comm]

/-- C6: the dedup scan keeps the first record per distinct nonempty
ASIN, drops every later record with the same ASIN, and keeps every
record with an empty or absent ASIN (it equals the specification-side
dedup on every input); on the concrete three-record input only the
first B001 record and the empty-ASIN record survive, in order. -/
theorem C6_dedup_first_per_asin :
    (∀ l : List ProductData, dedupeByAsin [] l = dedupSpec l) ∧
    dedupeByAsin [] [dupRecA, dupRecB, emptyAsinRec] = [dupRecA, emptyAsinRec] := by
  constructor
  · intro l
    rw [dedupeByAsin_aux l []]
    congr 1
    apply List.filter_eq_self.mpr
    intro x _
    unfold seenPred
    rcases asinKey x with _ | b <;> simp
  · decide

theorem totalSpend_cons (i : OrderItem) (l : List OrderItem) :
    totalSpend (i :: l) = i.totalCost + totalSpend l := by
  simp [totalSpend]

theorem maxUnitsFor_pos (p : ProductData) : 0 < maxUnitsFor p := by
  unfold maxUnitsFor
  split_ifs <;> norm_num

theorem allocate_cons (budget : ℚ) (p : ProductData) (rest : List ProductData) (spend : ℚ) :
    allocate budget (p :: rest) spend =
      if budget ≤ spend then []
      else if jsOrQ p.cost 0 ≤ 0 then allocate budget rest spend
      else if budget < spend + jsOrQ p.cost 0 then allocate budget rest spend
      else if 0 < min (maxUnitsFor p : ℤ) ⌊(budget - spend) / jsOrQ p.cost 0⌋ then
        ⟨p, (min (maxUnitsFor p : ℤ) ⌊(budget - spend) / jsOrQ p.cost 0⌋).toNat,
          ((min (maxUnitsFor p : ℤ) ⌊(budget - spend) / jsOrQ p.cost 0⌋ : ℤ) : ℚ) *
            jsOrQ p.cost 0,
          ((min (maxUnitsFor p : ℤ) ⌊(budget - spend) / jsOrQ p.cost 0⌋ : ℤ) : ℚ) *
            jsOrQ p.profit 0⟩ ::
          allocate budget rest (spend +
            ((min (maxUnitsFor p : ℤ) ⌊(budget - spend) / jsOrQ p.cost 0⌋ : ℤ) : ℚ) *
              jsOrQ p.cost 0)
      else allocate budget rest spend := rfl

theorem allocate_spend_le (budget : ℚ) :
    ∀ (l : List ProductData) (spend : ℚ), spend ≤ budget →
      spend + totalSpend (allocate budget l spend) ≤ budget := by
  intro l
  induction l with
  | nil =>
    intro spend h
    simpa [allocate, totalSpend] using h
  | cons p rest ih =>
    intro spend h
    unfold allocate
    dsimp only
    split_ifs with hstop hc hover hu
    · simpa [totalSpend] using h
    · exact ih spend h
    · exact ih spend h
    · rw [totalSpend_cons]
      have hcost : 0 < jsOrQ p.cost 0 := lt_of_not_le hc
      have h1 : ((min (maxUnitsFor p : ℤ) ⌊(budget - spend) / jsOrQ p.cost 0⌋ : ℤ) : ℚ) ≤
          (budget - spend) / jsOrQ p.cost 0 := by
        calc ((min (maxUnitsFor p : ℤ) ⌊(budget - spend) / jsOrQ p.cost 0⌋ : ℤ) : ℚ) ≤
            ((⌊(budget - spend) / jsOrQ p.cost 0⌋ : ℤ) : ℚ) := by
              exact_mod_cast min_le_right _ _
          _ ≤ (budget - spend) / jsOrQ p.cost 0 := Int.floor_le _
      have h2 : ((min (maxUnitsFor p : ℤ) ⌊(budget - spend) / jsOrQ p.cost 0⌋ : ℤ) : ℚ) *
          jsOrQ p.cost 0 ≤ budget - spend := by
        have h3 := mul_le_mul_of_nonneg_right h1 (le_of_lt hcost)
        rwa [div_mul_cancel₀ _ hcost.ne'] at h3
      have h4 := ih (spend +
        ((min (maxUnitsFor p : ℤ) ⌊(budget - spend) / jsOrQ p.cost 0⌋ : ℤ) : ℚ) * jsOrQ p.cost 0)
        (by linarith)
      dsimp only
      linarith
    · exact ih spend h

/-- C7: for a nonnegative budget the total spend of generateOrder never
exceeds the budget; moreover the allocation walk skips an item entirely
when one unit would exceed the remaining budget and otherwise buys
min(cap, floor(remainingBudget / unitCost)) units and deducts the
spend. -/
theorem C7_order_spend_within_budget :
    (∀ (products : List ProductData) (budget : ℚ), 0 ≤ budget →
      totalSpend (generateOrder products budget) ≤ budget) ∧
    (∀ (p : ProductData) (rest : List ProductData) (budget spend : ℚ),
      spend < budget → 0 < jsOrQ p.cost 0 →
      (budget < spend + jsOrQ p.cost 0 →
        allocate budget (p :: rest) spend = allocate budget rest spend) ∧
      (spend + jsOrQ p.cost 0 ≤ budget →
        allocate budget (p :: rest) spend =
          ⟨p, (min (maxUnitsFor p : ℤ) ⌊(budget - spend) / jsOrQ p.cost 0⌋).toNat,
            ((min (maxUnitsFor p : ℤ) ⌊(budget - spend) / jsOrQ p.cost 0⌋ : ℤ) : ℚ) *
              jsOrQ p.cost 0,
            ((min (maxUnitsFor p : ℤ) ⌊(budget - spend) / jsOrQ p.cost 0⌋ : ℤ) : ℚ) *
              jsOrQ p.profit 0⟩ ::
            allocate budget rest (spend +
              ((min (maxUnitsFor p : ℤ) ⌊(budget - spend) / jsOrQ p.cost 0⌋ : ℤ) : ℚ) *
                jsOrQ p.cost 0))) := by
  constructor
  · intro products budget hb
    unfold generateOrder
    dsimp only
    have h := allocate_spend_le budget
      ((List.insertionSort scoreLe ((products.filter eligible).map (fun p => (p, score p)))).map
        (fun p => p.1)) 0 hb
    linarith
  · intro p rest budget spend hlt hcost
    constructor
    · intro hover
      rw [allocate_cons]
      rw [if_neg (not_le.mpr hlt), if_neg (not_le.mpr hcost), if_pos hover]
    · intro hfits
      have hfloor : 1 ≤ ⌊(budget - spend) / jsOrQ p.cost 0⌋ := by
        rw [Int.le_floor]
        rw [le_div_iff₀ hcost]
        push_cast
        linarith
      have hunits : 0 < min (maxUnitsFor p : ℤ) ⌊(budget - spend) / jsOrQ p.cost 0⌋ := by
        apply lt_min
        · exact_mod_cast maxUnitsFor_pos p
        · linarith
      rw [allocate_cons]
      rw [if_neg (not_le.mpr hlt), if_neg (not_le.mpr hcost), if_neg (not_lt.mpr hfits),
        if_pos hunits]

/-- C7 witness: the spend bound applied at a concrete product list and
budget 5. -/
theorem C7_order_spend_within_budget_witness :
    totalSpend (generateOrder [orderBoundW] 5) ≤ 5 :=
  C7_order_spend_within_budget.1 [orderBoundW] 5 (by norm_num)

/-- Evaluation helper: a rational with denominator 1 needs no decimal
shift. -/
theorem decExp_den_one (q : ℚ) (h : q.den = 1) : decExp q = 0 := by
  unfold decExp
  rw [show (1100 : ℕ) = 1099 + 1 from rfl, List.range_succ_eq_map]
  rw [List.find?_cons_of_pos]
  · rfl
  · simp [h]

theorem jsDigitsValue_zero : jsDigitsValue 0 = 0 := by
  unfold jsDigitsValue
  rw [decExp_den_one 0 rfl]
  simp

theorem score_badgeRec : score badgeRec = 10000 := by
  unfold score
  rw [show hasBadgeB badgeRec = true from by decide]
  norm_num [orderRank, orderReviews, jsDigitsValue_zero, badgeRec]

theorem score_cheapRec : score cheapRec = 0 := by
  unfold score
  rw [show hasBadgeB cheapRec = false from by decide]
  norm_num [orderRank, orderReviews, jsDigitsValue_zero, cheapRec]

theorem sortedPair_c2 :
    List.insertionSort scoreLe [(badgeRec, score badgeRec), (cheapRec, score cheapRec)] =
      [(badgeRec, score badgeRec), (cheapRec, score cheapRec)] := by
  simp only [List.insertionSort, List.orderedInsert]
  rw [if_pos]
  unfold scoreLe
  rw [score_badgeRec, score_cheapRec]
  norm_num

theorem maxUnitsCheap : maxUnitsFor cheapRec = 2 := by
  unfold maxUnitsFor
  rw [if_neg (by decide), if_neg]
  norm_num [orderRank, cheapRec]

theorem maxUnitsBadge : maxUnitsFor badgeRec = 8 := by
  unfold maxUnitsFor
  rw [if_pos (by decide)]

theorem generateOrder_c2_two : generateOrder [badgeRec, cheapRec] 2 = [⟨cheapRec, 2, 2, 10⟩] := by
  unfold generateOrder
  rw [show [badgeRec, cheapRec].filter eligible = [badgeRec, cheapRec] from by decide]
  dsimp only
  simp only [List.map_cons, List.map_nil]
  rw [sortedPair_c2]
  simp only [List.map_cons, List.map_nil]
  rw [allocate_cons]
  rw [if_neg (by norm_num), if_neg (by norm_num [jsOrQ, badgeRec]), if_pos (by norm_num [jsOrQ, badgeRec])]
  rw [allocate_cons]
  rw [if_neg (by norm_num), if_neg (by norm_num [jsOrQ, cheapRec]),
    if_neg (by norm_num [jsOrQ, cheapRec])]
  have hfl : ⌊((2:ℚ) - 0) / jsOrQ cheapRec.cost 0⌋ = 2 := by
    norm_num [jsOrQ, cheapRec]
  rw [if_pos (by rw [hfl, maxUnitsCheap]; norm_num)]
  rw [hfl, maxUnitsCheap]
  norm_num [jsOrQ, cheapRec, allocate]
  decide

theorem generateOrder_c2_ten : generateOrder [badgeRec, cheapRec] 10 = [⟨badgeRec, 1, 10, 1⟩] := by
  unfold generateOrder
  rw [show [badgeRec, cheapRec].filter eligible = [badgeRec, cheapRec] from by decide]
  dsimp only
  simp only [List.map_cons, List.map_nil]
  rw [sortedPair_c2]
  simp only [List.map_cons, List.map_nil]
  rw [allocate_cons]
  rw [if_neg (by norm_num), if_neg (by norm_num [jsOrQ, badgeRec]),
    if_neg (by norm_num [jsOrQ, badgeRec])]
  have hfl : ⌊((10:ℚ) - 0) / jsOrQ badgeRec.cost 0⌋ = 1 := by
    norm_num [jsOrQ, badgeRec]
  rw [if_pos (by rw [hfl, maxUnitsBadge]; norm_num)]
  rw [hfl, maxUnitsBadge]
  have hstop : ((10:ℚ) ≤ 0 + ((min ((8:ℕ):ℤ) 1 : ℤ) : ℚ) * jsOrQ badgeRec.cost 0) := by
    norm_num [jsOrQ, badgeRec]
  rw [allocate_cons, if_pos hstop]
  norm_num [jsOrQ, badgeRec]

theorem totalEstProfit_cons (i : OrderItem) (l : List OrderItem) :
    totalEstProfit (i :: l) = i.estProfit + totalEstProfit l := by
  simp [totalEstProfit]

theorem eligible_cost_pos (p : ProductData) (h : eligible p = true) : 0 < jsOrQ p.cost 0 := by
  unfold eligible at h
  simp only [Bool.and_eq_true, decide_eq_true_eq] at h
  exact h.2

theorem eligible_profit_pos (p : ProductData) (h : eligible p = true) : 0 < jsOrQ p.profit 0 := by
  unfold eligible at h
  simp only [Bool.and_eq_true, decide_eq_true_eq] at h
  exact h.1.2

theorem generateOrder_singleton (p : ProductData) (b : ℚ) :
    generateOrder [p] b = allocate b (if eligible p then [p] else []) 0 := by
  unfold generateOrder
  cases he : eligible p
  · simp [he, List.insertionSort]
  · simp [he, List.insertionSort, List.orderedInsert]

theorem singleEstProfit_nonneg (p : ProductData) (b : ℚ) (hprofit : 0 ≤ jsOrQ p.profit 0) :
    0 ≤ totalEstProfit (allocate b [p] 0) := by
  rw [allocate_cons]
  split_ifs with h1 h2 h3 h4
  · simp [totalEstProfit]
  · simp [totalEstProfit, allocate]
  · simp [totalEstProfit, allocate]
  · simp only [allocate, totalEstProfit, List.map_cons, List.map_nil, List.sum_cons,
      List.sum_nil, add_zero]
    have hm : (0:ℚ) ≤ ((min (maxUnitsFor p : ℤ) ⌊(b - 0) / jsOrQ p.cost 0⌋ : ℤ) : ℚ) := by
      exact_mod_cast le_of_lt h4
    exact mul_nonneg hm hprofit
  · simp [totalEstProfit, allocate]

/-- C2 amended: for a single-candidate set the greedy order builder is
budget-monotone in both total units purchased and total estimated
profit; on multi-item candidate sets the property fails (see the
counterexample), as the greedy walk is not optimal. -/
theorem C2_order_monotone_singleton (p : ProductData) (b b' : ℚ) (hbb : b ≤ b') :
    totalUnits (generateOrder [p] b) ≤ totalUnits (generateOrder [p] b') ∧
    totalEstProfit (generateOrder [p] b) ≤ totalEstProfit (generateOrder [p] b') := by
  rw [generateOrder_singleton, generateOrder_singleton]
  cases he : eligible p
  · simp [totalUnits, totalEstProfit, allocate]
  · simp only [if_true]
    have hcost : 0 < jsOrQ p.cost 0 := eligible_cost_pos p he
    have hprofit : 0 < jsOrQ p.profit 0 := eligible_profit_pos p he
    by_cases hb0 : b ≤ 0
    · constructor
      · rw [allocate_cons, if_pos hb0]
        simp [totalUnits]
      · rw [allocate_cons, if_pos hb0]
        simp only [totalEstProfit, List.map_nil, List.sum_nil]
        exact singleEstProfit_nonneg p b' (le_of_lt hprofit)
    · push_neg at hb0
      by_cases hcb : b < jsOrQ p.cost 0
      · constructor
        · rw [allocate_cons, if_neg (not_le.mpr hb0), if_neg (not_le.mpr hcost),
            if_pos (by linarith)]
          simp [totalUnits, allocate]
        · rw [allocate_cons, if_neg (not_le.mpr hb0), if_neg (not_le.mpr hcost),
            if_pos (by linarith)]
          simp only [allocate, totalEstProfit, List.map_nil, List.sum_nil]
          exact singleEstProfit_nonneg p b' (le_of_lt hprofit)
      · push_neg at hcb
        have hb'0 : ¬(b' ≤ 0) := not_le.mpr (lt_of_lt_of_le hb0 hbb)
        have hcb' : jsOrQ p.cost 0 ≤ b' := le_trans hcb hbb
        have hmono : min (maxUnitsFor p : ℤ) ⌊(b - 0) / jsOrQ p.cost 0⌋ ≤
            min (maxUnitsFor p : ℤ) ⌊(b' - 0) / jsOrQ p.cost 0⌋ := by
          apply min_le_min (le_refl _)
          apply Int.floor_le_floor
          apply (div_le_div_right hcost).mpr
          linarith
        have hfl : 1 ≤ ⌊(b - 0) / jsOrQ p.cost 0⌋ := by
          rw [Int.le_floor]
          rw [le_div_iff₀ hcost]
          push_cast
          linarith
        have hfl' : 1 ≤ ⌊(b' - 0) / jsOrQ p.cost 0⌋ := by
          rw [Int.le_floor]
          rw [le_div_iff₀ hcost]
          push_cast
          linarith
        have hmax : (1:ℤ) ≤ (maxUnitsFor p : ℤ) := by
          exact_mod_cast maxUnitsFor_pos p
        have hu : 0 < min (maxUnitsFor p : ℤ) ⌊(b - 0) / jsOrQ p.cost 0⌋ := by
          apply lt_min <;> omega
        have hu' : 0 < min (maxUnitsFor p : ℤ) ⌊(b' - 0) / jsOrQ p.cost 0⌋ := by
          apply lt_min <;> omega
        rw [allocate_cons, if_neg (not_le.mpr hb0), if_neg (not_le.mpr hcost),
          if_neg (by rw [zero_add]; exact not_lt.mpr hcb), if_pos hu]
        rw [allocate_cons, if_neg hb'0, if_neg (not_le.mpr hcost),
          if_neg (by rw [zero_add]; exact not_lt.mpr hcb'), if_pos hu']
        constructor
        · simp only [totalUnits, allocate, List.map_cons, List.map_nil, List.sum_cons,
            List.sum_nil]
          have := Int.toNat_le_toNat hmono
          omega
        · simp only [totalEstProfit, allocate, List.map_cons, List.map_nil, List.sum_cons,
            List.sum_nil]
          have hcast : ((min (maxUnitsFor p : ℤ) ⌊(b - 0) / jsOrQ p.cost 0⌋ : ℤ) : ℚ) ≤
              ((min (maxUnitsFor p : ℤ) ⌊(b' - 0) / jsOrQ p.cost 0⌋ : ℤ) : ℚ) := by
            exact_mod_cast hmono
          have := mul_le_mul_of_nonneg_right hcast (le_of_lt hprofit)
          linarith

/-- C2 counterexample: on the fixed candidate set of the two records,
raising the budget from 2 to 10 strictly decreases both the total units
purchased (2 to 1) and the total estimated profit (10 to 1): the badged
item exhausts the larger budget while the cheap profitable item filled
the smaller one. -/
theorem C2_counterexample :
    (2 : ℚ) ≤ 10 ∧
    totalUnits (generateOrder [badgeRec, cheapRec] 10) <
      totalUnits (generateOrder [badgeRec, cheapRec] 2) ∧
    totalEstProfit (generateOrder [badgeRec, cheapRec] 10) <
      totalEstProfit (generateOrder [badgeRec, cheapRec] 2) := by
  rw [generateOrder_c2_two, generateOrder_c2_ten]
  refine ⟨by norm_num, ?_, ?_⟩ <;> norm_num [totalUnits, totalEstProfit]

/-- C2 witness: monotonicity applied to the singleton candidate set at
budgets 1 and 3. -/
theorem C2_order_monotone_singleton_witness :
    totalUnits (generateOrder [cheapRec] 1) ≤ totalUnits (generateOrder [cheapRec] 3) ∧
    totalEstProfit (generateOrder [cheapRec] 1) ≤ totalEstProfit (generateOrder [cheapRec] 3) :=
  C2_order_monotone_singleton cheapRec 1 3 (by norm_num)

theorem amGet_amSet_ne (m : List (String × CostEntry)) (k u : String) (v : CostEntry)
    (hku : k ≠ u) (h : amGet m u = none) : amGet (amSet m k v) u = none := by
  unfold amGet at h ⊢
  rw [Option.map_eq_none'] at h ⊢
  rw [List.find?_eq_none] at h ⊢
  intro x hx
  simp only [amSet, List.mem_cons, List.mem_filter] at hx
  rcases hx with rfl | ⟨hxm, -⟩
  · simp [hku]
  · exact h x hxm

theorem buildCostMap_miss (costKey msrpKey upcKey : String) (extraKeys : List String)
    (u : String) :
    ∀ (rows : List JRow) (acc : List (String × CostEntry)),
      amGet acc u = none →
      (∀ row ∈ rows, ∀ s, alookup row upcKey = some s → s ≠ "" →
        cleanProductCode (some s) = u →
          parsedMoney (alookup row costKey) = 0 ∧ parsedMoney (alookup row msrpKey) = 0 ∧
          rowExtras extraKeys row = []) →
      amGet (rows.foldl (costMapStep costKey msrpKey upcKey extraKeys) acc) u = none := by
  intro rows
  induction rows with
  | nil =>
    intro acc hacc _
    simpa using hacc
  | cons row rest ih =>
    intro acc hacc hall
    rw [List.foldl_cons]
    apply ih
    · unfold costMapStep
      dsimp only
      split_ifs with hskip
      · exact hacc
      · rcases hlook : alookup row upcKey with _ | s
        · exact hacc
        · dsimp only
          split_ifs with hse hce
          · exact hacc
          · exact hacc
          · by_cases hcu : cleanProductCode (some s) = u
            · exact absurd (hall row (List.mem_cons_self row rest) s hlook hse hcu) hskip
            · exact amGet_amSet_ne acc _ u _ hcu hacc
    · intro r hr
      exact hall r (List.mem_cons_of_mem row hr)

/-- C10: a cost row whose parsed cost and MSRP are both 0 and whose
pass-through cells are all absent or empty contributes no entry to the
cost lookup; consequently a main record whose (nonempty) cleaned
identifier matches only such rows is a join miss: its COST becomes its
prior COST plus shipping plus misc, its MSRP is unchanged, and its COST
cell is flagged No Cost Found; integrateCosts applies exactly this
per-record step to every record. -/
theorem C10_empty_cost_row_join_miss
    (rows : List JRow) (mapping : JMap) (shipping misc : ℚ) (item : ProductData)
    (hrows : rows ≠ [])
    (hupc : jsOrS item.importedByCode "" ≠ "")
    (hmatch : ∀ row ∈ rows, ∀ s, alookup row (upcKeyOf mapping) = some s → s ≠ "" →
      cleanProductCode (some s) = jsOrS item.importedByCode "" →
        parsedMoney (alookup row (costKeyOf mapping)) = 0 ∧
        parsedMoney (alookup row (msrpKeyOf mapping)) = 0 ∧
        rowExtras (extraKeysOf rows mapping) row = []) :
    (∀ (m : List (String × CostEntry)) (row : JRow),
      parsedMoney (alookup row (costKeyOf mapping)) = 0 →
      parsedMoney (alookup row (msrpKeyOf mapping)) = 0 →
      rowExtras (extraKeysOf rows mapping) row = [] →
      costMapStep (costKeyOf mapping) (msrpKeyOf mapping) (upcKeyOf mapping)
        (extraKeysOf rows mapping) m row = m) ∧
    amGet (buildCostMap (costKeyOf mapping) (msrpKeyOf mapping) (upcKeyOf mapping)
      (extraKeysOf rows mapping) rows) (jsOrS item.importedByCode "") = none ∧
    ((applyCostRow (buildCostMap (costKeyOf mapping) (msrpKeyOf mapping) (upcKeyOf mapping)
        (extraKeysOf rows mapping) rows) (!rows.isEmpty) shipping misc item).cost =
      item.cost + shipping + misc ∧
     (applyCostRow (buildCostMap (costKeyOf mapping) (msrpKeyOf mapping) (upcKeyOf mapping)
        (extraKeysOf rows mapping) rows) (!rows.isEmpty) shipping misc item).msrp =
      item.msrp ∧
     sGet (applyCostRow (buildCostMap (costKeyOf mapping) (msrpKeyOf mapping) (upcKeyOf mapping)
        (extraKeysOf rows mapping) rows) (!rows.isEmpty) shipping misc item).styles "COST" =
      some "No Cost Found") ∧
    (∀ processed : List ProductData,
      (integrateCosts processed (some (rows, mapping)) shipping misc).1 =
        processed.map (applyCostRow (buildCostMap (costKeyOf mapping) (msrpKeyOf mapping)
          (upcKeyOf mapping) (extraKeysOf rows mapping) rows) (!rows.isEmpty) shipping misc)) := by
  have hmiss : amGet (buildCostMap (costKeyOf mapping) (msrpKeyOf mapping) (upcKeyOf mapping)
      (extraKeysOf rows mapping) rows) (jsOrS item.importedByCode "") = none :=
    buildCostMap_miss _ _ _ _ _ rows [] rfl hmatch
  have hne : rows.isEmpty = false := by
    rcases rows with _ | ⟨r, rs⟩
    · exact absurd rfl hrows
    · rfl
  refine ⟨?_, hmiss, ?_, fun processed => rfl⟩
  · intro m row h1 h2 h3
    unfold costMapStep
    dsimp only
    rw [if_pos ⟨h1, h2, h3⟩]
  · unfold applyCostRow
    dsimp only
    rw [if_neg hupc, hmiss]
    dsimp only
    rw [hne]
    refine ⟨?_, rfl, ?_⟩
    · rw [jsOrQ_zero]
    · dsimp only
      simp [sGet, sSet, List.find?]

/-- C10 witness: the join-miss COST outcome at the concrete all-empty
cost row. -/
theorem C10_empty_cost_row_join_miss_witness :
    (applyCostRow (buildCostMap (costKeyOf c10mapping) (msrpKeyOf c10mapping)
        (upcKeyOf c10mapping) (extraKeysOf [c10row] c10mapping) [c10row])
      (!(List.isEmpty [c10row])) 1 (1/2) c10item).cost = c10item.cost + 1 + 1/2 :=
  (C10_empty_cost_row_join_miss [c10row] c10mapping 1 (1/2) c10item (by decide) (by decide)
    (by
      intro row hr s hs hne hcl
      simp only [List.mem_singleton] at hr
      subst hr
      refine ⟨?_, ?_, rfl⟩ <;>
        simp +decide [parsedMoney, costKeyOf, msrpKeyOf, c10mapping, c10row, alookup, jsOrS,
          parseFloatStripped, stripToNumeric, digitsVal] <;> norm_num)).2.2.1.1

set_option maxRecDepth 40000 in
/-- The detected main mapping: all seven headers map exactly; no header
is left for Imported by Code. -/
theorem hMainMap : mainMapping = [("Brand", "Brand"), ("Parent", "Parent"), ("ASIN", "ASIN"),
    ("Title", "Title"), ("Color", "Color"), ("Sales Rank", "Sales Rank"),
    ("Buy Box", "Buy Box")] := by decide

set_option maxRecDepth 40000 in
/-- The detected cost mapping. -/
theorem hCostMap : costMapping = [("Imported by Code", "UPC"), ("COST", "Cost"),
    ("MSRP", "MSRP")] := by decide

/-- Ingestion of the scenario row. -/
theorem hSan : mapAndSanitizeRow mainMapping mainRow = e2eSan := by
  rw [hMainMap]
  simp +decide [mapAndSanitizeRow, e2eSan, mainRow, rawCell, alookup, sanitizeNum, sanitizePct,
    parseFloatStripped, stripToNumeric, digitsVal] <;> norm_num

/-- A record with no identifier value is always a cost-join miss. -/
theorem applyCostRow_noid (cm : List (String × CostEntry)) (hasRows : Bool) (sh mc : ℚ)
    (item : ProductData) (h : jsOrS item.importedByCode "" = "") :
    applyCostRow cm hasRows sh mc item =
      { item with
        cost := jsOrQ item.cost 0 + sh + mc
        styles := if hasRows then sSet item.styles "COST" "No Cost Found" else item.styles } := by
  unfold applyCostRow
  dsimp only
  rw [if_pos h]

/-- Cost integration of the scenario record. -/
theorem hCosted : (integrateCosts [e2eSan] (some ([costRow], costMapping)) 1 (1/2)).1 =
    [e2eCosted] := by
  unfold integrateCosts
  dsimp only [List.map]
  rw [applyCostRow_noid _ _ _ _ _ (by decide)]
  simp +decide [e2eCosted, e2eSan, jsOrQ, sSet] <;> norm_num

/-- Dedup is the identity on the single scenario record. -/
theorem hDedup : dedupeByAsin [] [e2eSan] = [e2eSan] := by
  simp +decide [dedupeByAsin, show asinKey e2eSan = some "A1" from by decide]

/-- The scenario record passes the noise filter. -/
theorem hValid : removeInvalid [e2eSan] = [e2eSan] := by
  unfold removeInvalid
  rw [List.filter_cons_of_pos (by decide)]
  rfl

/-- Sorting a singleton is the identity. -/
theorem hSort : List.insertionSort catalogLe [e2eCosted] = [e2eCosted] := by
  simp [List.insertionSort, List.orderedInsert]

/-- No best variant exists (the group maximum child rating is 0). -/
theorem hBest : bestIndex [e2eCosted] = none := by decide

/-- The profitability brain on the scenario record: fees are
backfilled, the Buy-Box price used is 10, Profit is 10 * 0.85 - (1.5 +
7) = 0 and ROI is 0. -/
theorem hBrain : brainItem false e2eCosted = e2eFinal := by
  norm_num [brainItem, defaultFees, getBuyBoxWaterfallPrice, getSalePrice, calculateProfit,
    calculateROI, jsOrQ, sSet, e2eCosted, e2eFinal, e2eSan]
  decide

/-- End-to-end evaluation of the pipeline on the C1 scenario. -/
theorem hE2E : e2eResult = [e2eFinal] := by
  unfold e2eResult processDataCore
  dsimp only
  rw [show mapAndSanitize [mainRow] mainMapping = [e2eSan] from by
    unfold mapAndSanitize
    rw [List.map_cons, List.map_nil, hSan]]
  rw [hDedup, hValid, hCosted, hSort]
  unfold processBrain
  rw [show splitRuns [e2eCosted] = [[e2eCosted]] from by simp [splitRuns]]
  unfold processGroup
  simp only [List.flatMap_cons, List.flatMap_nil, List.append_nil, List.enum, List.enumFrom,
    List.map_cons, List.map_nil, hBest]
  rw [show (decide ((none : Option ℕ) = some 0)) = false from by decide]
  rw [hBrain]

/-- C1 counterexample: on the claimed scenario the resulting COST is
1.50, not 5.50 — the cost join misses because the auto-detected main
mapping has no Imported by Code column, so only shipping 1 and misc 0.5
are added. -/
theorem C1_counterexample :
    e2eResult.map (fun r => r.cost) = [3/2] ∧ ((3:ℚ)/2 ≠ 11/2) := by
  rw [hE2E]
  constructor
  · norm_num [e2eFinal, e2eSan]
  · norm_num

/-- C1 amended: on the claimed scenario the auto-detected main mapping
has no Imported by Code entry, so the cost join misses: COST = 1.50 (0 +
shipping 1 + misc 0.5) and the record is flagged No Cost Found; the
Buy-Box price used is 10.00, Referral Fee defaults to 0.15, Pick & Pack
defaults to 7.00, Profit = 10 * 0.85 - (1.5 + 7) = 0 and ROI = 0. -/
theorem C1_endToEnd_amended :
    alookup mainMapping "Imported by Code" = none ∧
    e2eResult.map (fun r =>
      (r.cost, r.priceUsedForBB, r.referralFee, r.pickPack, r.profit, r.roi,
        sGet r.styles "COST")) =
      [(3/2, some 10, 3/20, 7, 0, 0, some "No Cost Found")] := by
  constructor
  · rw [hMainMap]
    decide
  · rw [hE2E]
    simp +decide [e2eFinal, e2eSan, sGet, List.find?] <;> norm_num

end Pipeline
